import Mathlib

/-!
Verification of the `SuggestService` of the `elastic` Go package
(`src/suggest.go`): a fluent builder that assembles a `POST /<indices><types>/_suggest`
request with optional query parameters and a JSON body of named suggesters, and
decodes the JSON response into a `SuggestResult`, skipping the reserved key
`_shards`.

The shallow embedding below translates the Go code into pure Lean functions:
  * JSON values are the inductive `Json` (numbers modelled as `Int`; floating
    point precision is outside the claims considered here);
  * the Go `map[string]...` values are modelled as association lists with
    last-write-wins insertion (`mapInsert`);
  * fallible operations return `Except`;
  * the HTTP transport is a parameter of `SuggestService.Do`, returning either
    a connection failure or a `Response` with a status code and parsed body.
-/

/-- JSON value. Numbers are modelled as integers: no claim under consideration
depends on fractional numeric values. -/
inductive Json where
  | null : Json
  | bool : Bool → Json
  | num : Int → Json
  | str : String → Json
  | arr : List Json → Json
  | obj : List (String × Json) → Json

/-- Hexadecimal digit characters used by percent-escaping, uppercase as in Go. -/
def hexDigitChar : Nat → Char
  | 0 => '0' | 1 => '1' | 2 => '2' | 3 => '3' | 4 => '4'
  | 5 => '5' | 6 => '6' | 7 => '7' | 8 => '8' | 9 => '9'
  | 10 => 'A' | 11 => 'B' | 12 => 'C' | 13 => 'D' | 14 => 'E' | _ => 'F'

/-- Characters that need no escaping in a URL path segment or query component
(RFC 3986 unreserved characters). -/
def isUnreservedChar (c : Char) : Bool :=
  c.isAlphanum || c = '-' || c = '_' || c = '.' || c = '~'

/-- Percent-escaping of one character (ASCII-oriented model). -/
def escChar (c : Char) : List Char :=
  if isUnreservedChar c then [c]
  else ['%', hexDigitChar (c.toNat / 16 % 16), hexDigitChar (c.toNat % 16)]

/-- Escape every character of a list. -/
def escapeChars : List Char → List Char
  | [] => []
  | c :: cs => escChar c ++ escapeChars cs

/-- Modelled from the spec: `cleanPathString` is called by `SuggestService.Do`
but its definition is not part of this source file.  The spec describes it as
path-escaping: "characters unsafe in a URL path segment must be percent-encoded
or rejected".  We model it as percent-encoding every non-unreserved character
(ASCII-oriented; multi-byte UTF-8 expansion is not modelled). -/
def cleanPathString (s : String) : String :=
  String.mk (escapeChars s.data)

/-- Model of Go `strings.Join(elems, sep)`. -/
def goJoin (sep : String) : List String → String
  | [] => ""
  | [x] => x
  | x :: xs => x ++ sep ++ goJoin sep xs

/-- Percent-escaping of one character in a query component: Go
`net/url.QueryEscape` keeps unreserved characters, turns a space into a plus
sign, and percent-encodes the rest. -/
def queryEscChar (c : Char) : List Char :=
  if isUnreservedChar c then [c]
  else if c = ' ' then ['+']
  else ['%', hexDigitChar (c.toNat / 16 % 16), hexDigitChar (c.toNat % 16)]

/-- Escape every character of a list for a query component. -/
def queryEscapeChars : List Char → List Char
  | [] => []
  | c :: cs => queryEscChar c ++ queryEscapeChars cs

/-- Model of Go `net/url.QueryEscape`. -/
def queryEscape (s : String) : String :=
  String.mk (queryEscapeChars s.data)

/-- Lexicographic comparison of character lists, as Go compares strings
byte-wise (the two agree on ASCII). -/
def charListLt : List Char → List Char → Bool
  | [], [] => false
  | [], _ :: _ => true
  | _ :: _, [] => false
  | c :: cs, d :: ds => if c < d then true else if d < c then false else charListLt cs ds

/-- String comparison used to sort query-parameter keys. -/
def strLtB (a b : String) : Bool := charListLt a.data b.data

/-- Insertion into a sorted association list, ordered by key. -/
def insertSorted (p : String × String) : List (String × String) → List (String × String)
  | [] => [p]
  | q :: qs => if strLtB q.1 p.1 then q :: insertSorted p qs else p :: q :: qs

/-- Insertion sort by key, as Go `sort.Strings` sorts the keys of
`url.Values` before encoding. -/
def sortByKey (l : List (String × String)) : List (String × String) :=
  l.foldr insertSorted []

/-- Model of Go `url.Values.Encode`: keys sorted, each pair emitted as
`key=value` with both sides query-escaped, pairs joined by ampersands. -/
def urlValuesEncode (params : List (String × String)) : String :=
  goJoin "&" ((sortByKey params).map (fun p => queryEscape p.1 ++ "=" ++ queryEscape p.2))

/-- Modelled from the spec: the `Suggester` interface (`Name()`,
`Source(includeName bool)`) is referenced by `SuggestService` but declared
elsewhere in the repository.  The spec describes it as exposing
`name() -> string` and `toRequestBody(includeMetadata: bool) -> JSON value`. -/
structure Suggester where
  Name : String
  Source : Bool → Json

/-- Builder state of `SuggestService` (`src/suggest.go` lines 17-26).  The
`client` pointer is replaced by passing the transport to `Do` directly. -/
structure SuggestService where
  pretty : Bool
  debug : Bool
  routing : String
  preference : String
  indices : List String
  types : List String
  suggesters : List Suggester

/-- Constructor `NewSuggestService` (lines 28-36): empty lists, zero-valued
options. -/
def NewSuggestService : SuggestService :=
  { pretty := false, debug := false, routing := "", preference := ""
    indices := [], types := [], suggesters := [] }

/-- Fluent setter `Index` (lines 38-41): appends one index name. -/
def SuggestService.Index (s : SuggestService) (index : String) : SuggestService :=
  { s with indices := s.indices ++ [index] }

/-- Fluent setter `Indices` (lines 43-46): appends many index names. -/
def SuggestService.Indices (s : SuggestService) (indices : List String) : SuggestService :=
  { s with indices := s.indices ++ indices }

/-- Fluent setter `Type` (lines 48-51): appends one type name. -/
def SuggestService.Typ (s : SuggestService) (typ : String) : SuggestService :=
  { s with types := s.types ++ [typ] }

/-- Fluent setter `Types` (lines 53-56): appends many type names. -/
def SuggestService.Types (s : SuggestService) (types : List String) : SuggestService :=
  { s with types := s.types ++ types }

/-- Fluent setter `Pretty` (lines 58-61): overwrites the pretty flag. -/
def SuggestService.Pretty (s : SuggestService) (pretty : Bool) : SuggestService :=
  { s with pretty := pretty }

/-- Fluent setter `Debug` (lines 63-66): overwrites the debug flag. -/
def SuggestService.Debug (s : SuggestService) (debug : Bool) : SuggestService :=
  { s with debug := debug }

/-- Fluent setter `Routing` (lines 68-71): overwrites the routing string. -/
def SuggestService.Routing (s : SuggestService) (routing : String) : SuggestService :=
  { s with routing := routing }

/-- Fluent setter `Preference` (lines 73-76): overwrites the preference string. -/
def SuggestService.Preference (s : SuggestService) (preference : String) : SuggestService :=
  { s with preference := preference }

/-- Fluent setter `Suggester` (lines 78-81): appends one suggester. -/
def SuggestService.Suggester (s : SuggestService) (suggester : Suggester) : SuggestService :=
  { s with suggesters := s.suggesters ++ [suggester] }

/-- URL path construction of `Do` (lines 83-102): leading slash, the
`cleanPathString`-escaped indices joined by commas, then (with no separator in
between) the escaped types joined by commas, then the literal `/_suggest`. -/
def buildPath (s : SuggestService) : String :=
  "/" ++ goJoin "," (s.indices.map cleanPathString)
      ++ goJoin "," (s.types.map cleanPathString)
      ++ "/_suggest"

/-- Query parameters of `Do` (lines 104-114): `pretty=true` only when the
pretty flag is set (Go renders the `true` boolean as the string `true`),
`routing` only when non-empty, `preference` only when non-empty. -/
def buildParams (s : SuggestService) : List (String × String) :=
  (if s.pretty then [("pretty", "true")] else [])
    ++ (if s.routing ≠ "" then [("routing", s.routing)] else [])
    ++ (if s.preference ≠ "" then [("preference", s.preference)] else [])

/-- Query-string suffix of `Do` (lines 115-117): nothing when no parameter is
set, otherwise a question mark followed by the encoded parameters. -/
def querySuffix (s : SuggestService) : String :=
  if (buildParams s).isEmpty then "" else "?" ++ urlValuesEncode (buildParams s)

/-- Complete URL built by `Do` (lines 83-117). -/
def buildUrl (s : SuggestService) : String :=
  buildPath s ++ querySuffix s

/-- Path formula as the spec words it: `/` + (I joined by `,`, each
path-escaped) + (T joined by `,`, each path-escaped) + `/_suggest`, with no
separator between the two joined groups. -/
def specPathFormula (I T : List String) : String :=
  "/" ++ goJoin "," (I.map cleanPathString)
      ++ goJoin "," (T.map cleanPathString)
      ++ "/_suggest"

/-- One candidate completion (`suggestionOption`, lines 185-189).  The Go
`float32` score is modelled as an integer, consistent with `Json.num`. -/
structure suggestionOption where
  Text : String
  Score : Int
  Freq : Int
deriving DecidableEq

/-- One matched span with its candidates (`Suggestion`, lines 178-183). -/
structure Suggestion where
  Text : String
  Offset : Int
  Length : Int
  Options : List suggestionOption
deriving DecidableEq

/-- Decoded result (`SuggestResult`, line 176).  The Go
`map[string][]Suggestion` is modelled as an association list. -/
abbrev SuggestResult := List (String × List Suggestion)

/-- Insertion into an association list with Go map semantics: an existing
entry under the key is overwritten, otherwise the pair is appended. -/
def mapInsert (m : List (String × Json)) (k : String) (v : Json) : List (String × Json) :=
  if m.any (fun p => p.1 = k) then m.map (fun p => if p.1 = k then (k, v) else p)
  else m ++ [(k, v)]

/-- Request body of `Do` (lines 126-131): starting from the empty map, each
registered suggester stores its `Source(false)` fragment under its `Name()`. -/
def suggestBody (sgs : List Suggester) : List (String × Json) :=
  sgs.foldl (fun m sg => mapInsert m sg.Name (sg.Source false)) []

/-- First field under a key in a decoded JSON object. -/
def lookupField (fields : List (String × Json)) (k : String) : Option Json :=
  (fields.find? (fun p => p.1 = k)).map Prod.snd

/-- Decoding of a string-typed struct field, with Go `encoding/json`
semantics: a missing key or JSON null leaves the zero value, a string is
taken verbatim, any other shape is a type error. -/
def decodeStringField (fields : List (String × Json)) (k : String) : Except String String :=
  match lookupField fields k with
  | none => .ok ""
  | some .null => .ok ""
  | some (.str t) => .ok t
  | some _ => .error ("cannot unmarshal field " ++ k ++ " into string")

/-- Decoding of an integer-typed struct field, with the same Go semantics. -/
def decodeIntField (fields : List (String × Json)) (k : String) : Except String Int :=
  match lookupField fields k with
  | none => .ok 0
  | some .null => .ok 0
  | some (.num n) => .ok n
  | some _ => .error ("cannot unmarshal field " ++ k ++ " into int")

/-- Decoding of one `suggestionOption` from JSON: null gives the zero value,
an object is read field by field (missing fields default), anything else
fails. -/
def decodeSuggestionOption : Json → Except String suggestionOption
  | .null => .ok { Text := "", Score := 0, Freq := 0 }
  | .obj fs => do
      let t ← decodeStringField fs "text"
      let sc ← decodeIntField fs "score"
      let fr ← decodeIntField fs "freq"
      .ok { Text := t, Score := sc, Freq := fr }
  | _ => .error "cannot unmarshal into suggestionOption"

/-- Decoding of a list of `suggestionOption` values, element by element. -/
def decodeSuggestionOptionList : List Json → Except String (List suggestionOption)
  | [] => .ok []
  | x :: xs => do
      let o ← decodeSuggestionOption x
      let rest ← decodeSuggestionOptionList xs
      .ok (o :: rest)

/-- Decoding of the `options` field of a `Suggestion`: missing or null gives
the empty slice, an array decodes element-wise, anything else fails. -/
def decodeOptionsField (fields : List (String × Json)) : Except String (List suggestionOption) :=
  match lookupField fields "options" with
  | none => .ok []
  | some .null => .ok []
  | some (.arr xs) => decodeSuggestionOptionList xs
  | some _ => .error "cannot unmarshal field options into slice"

/-- Decoding of one `Suggestion` from JSON, with Go `encoding/json`
semantics: null gives the zero value, an object is read field by field,
anything else fails. -/
def decodeSuggestion : Json → Except String Suggestion
  | .null => .ok { Text := "", Offset := 0, Length := 0, Options := [] }
  | .obj fs => do
      let t ← decodeStringField fs "text"
      let off ← decodeIntField fs "offset"
      let len ← decodeIntField fs "length"
      let opts ← decodeOptionsField fs
      .ok { Text := t, Offset := off, Length := len, Options := opts }
  | _ => .error "cannot unmarshal into Suggestion"

/-- Decoding of a list of `Suggestion` values, element by element. -/
def decodeSuggestionList : List Json → Except String (List Suggestion)
  | [] => .ok []
  | x :: xs => do
      let sg ← decodeSuggestion x
      let rest ← decodeSuggestionList xs
      .ok (sg :: rest)

/-- Decoding of a JSON value as `[]Suggestion` (`json.Unmarshal` at line 166):
null gives the nil slice, an array decodes element-wise, any other shape is a
type error. -/
def decodeSuggestions : Json → Except String (List Suggestion)
  | .null => .ok []
  | .arr xs => decodeSuggestionList xs
  | _ => .error "cannot unmarshal into slice of Suggestion"

/-- Second decoding stage of `Do` (lines 162-171): every field whose key is
the reserved `_shards` is skipped; every other value must decode as a list of
`Suggestion`, and any failure aborts the whole decode with no partial
result. -/
def decodeFields : List (String × Json) → Except String SuggestResult
  | [] => .ok []
  | (name, v) :: rest =>
      if name = "_shards" then decodeFields rest
      else
        match decodeSuggestions v with
        | .error e => .error e
        | .ok sgs =>
            match decodeFields rest with
            | .error e => .error e
            | .ok r => .ok ((name, sgs) :: r)

/-- First decoding stage of `Do` (lines 157-160): the body must decode as
`map[string]*json.RawMessage`, so a JSON object (or null, which Go decodes
into the nil map); any other shape is a decode error.  Both stages chained. -/
def decodeResponseBody : Json → Except String SuggestResult
  | .null => .ok []
  | .obj fields => decodeFields fields
  | _ => .error "cannot unmarshal into map"

/-- HTTP request descriptor handed to the transport. -/
structure Request where
  method : String
  url : String
  body : Json

/-- HTTP response returned by the transport: a status code and the parsed
JSON body. -/
structure Response where
  statusCode : Nat
  body : Json

/-- Outcome of one transport round trip: a connection failure or a response. -/
inductive TransportOutcome where
  | failure : String → TransportOutcome
  | success : Response → TransportOutcome

/-- Errors surfaced by `Do`. -/
inductive DoError where
  | transport : String → DoError
  | status : Nat → DoError
  | decode : String → DoError
deriving DecidableEq

/-- Modelled from the spec: `checkResponse` (called at line 145) is not part
of this source file.  The spec classifies "non-2xx status" as failure, so the
model accepts exactly the 2xx status codes. -/
def checkResponse (res : Response) : Except DoError Unit :=
  if 200 ≤ res.statusCode ∧ res.statusCode < 300 then .ok () else .error (.status res.statusCode)

/-- Request built by `Do` (lines 119-133): POST, the built URL, and the
suggester body as a JSON object. -/
def builtRequest (s : SuggestService) : Request :=
  { method := "POST", url := buildUrl s, body := .obj (suggestBody s.suggesters) }

/-- Execution (`SuggestService.Do`, lines 83-174): build the URL and body,
send the request through the transport, fail on connection error or
non-success status without touching the body, otherwise decode the body. -/
def SuggestService.Do (s : SuggestService) (transport : Request → TransportOutcome) :
    Except DoError SuggestResult :=
  match transport (builtRequest s) with
  | .failure msg => .error (.transport msg)
  | .success res =>
      match checkResponse res with
      | .error e => .error e
      | .ok _ =>
          match decodeResponseBody res.body with
          | .error msg => .error (.decode msg)
          | .ok ret => .ok ret

/-- Success test for an `Except` value. -/
def exceptIsOk : Except ε α → Bool
  | .ok _ => true
  | .error _ => false

/-- C1: for every list of index names and every list of type names configured
on the builder, the URL path built by execution equals the spec formula
`/` + (indices each path-escaped, joined by commas) + (types each
path-escaped, joined by commas) + `/_suggest`, with no separator between the
two joined groups; in particular indices `idx1,idx2` with no types give
`/idx1,idx2/_suggest`, and no indices with type `typ1` gives
`/typ1/_suggest`. -/
theorem buildPath_matches_spec_formula :
    (∀ s : SuggestService, buildPath s = specPathFormula s.indices s.types)
    ∧ buildPath { NewSuggestService with indices := ["idx1", "idx2"] } = "/idx1,idx2/_suggest"
    ∧ buildPath { NewSuggestService with types := ["typ1"] } = "/typ1/_suggest" := by
  refine ⟨fun s => rfl, by decide, by decide⟩

/-- C9: when the configured index list and type list are both empty, the
built URL path is `//_suggest`, with a double slash. -/
theorem buildPath_empty_double_slash (s : SuggestService)
    (hi : s.indices = []) (ht : s.types = []) : buildPath s = "//_suggest" := by
  simp only [buildPath, hi, ht, List.map_nil, goJoin]
  decide

/-- Witness for C9 at the freshly constructed service. -/
theorem buildPath_empty_double_slash_witness :
    buildPath NewSuggestService = "//_suggest" :=
  buildPath_empty_double_slash NewSuggestService rfl rfl

/-- C7: decoding a response whose body is the empty JSON object succeeds with
an empty `SuggestResult` mapping, not an error. -/
theorem decode_empty_object_ok :
    decodeResponseBody (.obj []) = .ok ([] : SuggestResult) := rfl

/-- Hexadecimal digit characters are never a question mark. -/
theorem hexDigitChar_ne_qmark : ∀ n : Nat, hexDigitChar n ≠ '?'
  | 0 => by decide
  | 1 => by decide
  | 2 => by decide
  | 3 => by decide
  | 4 => by decide
  | 5 => by decide
  | 6 => by decide
  | 7 => by decide
  | 8 => by decide
  | 9 => by decide
  | 10 => by decide
  | 11 => by decide
  | 12 => by decide
  | 13 => by decide
  | 14 => by decide
  | _ + 15 => by show ('F' : Char) ≠ '?'; decide

/-- Path escaping never emits a question mark. -/
theorem escChar_ne_qmark (c : Char) : ∀ d ∈ escChar c, d ≠ '?' := by
  intro d hd
  unfold escChar at hd
  split at hd
  case isTrue h =>
    simp only [List.mem_singleton] at hd
    subst hd
    intro hq
    subst hq
    exact absurd h (by decide)
  case isFalse h =>
    simp only [List.mem_cons, List.not_mem_nil, or_false] at hd
    rcases hd with h1 | h1 | h1
    · subst h1; decide
    · subst h1; exact hexDigitChar_ne_qmark _
    · subst h1; exact hexDigitChar_ne_qmark _

/-- Escaped character lists contain no question mark. -/
theorem escapeChars_qmark_free : ∀ cs : List Char, '?' ∉ escapeChars cs
  | [] => by simp [escapeChars]
  | c :: cs => by
      simp only [escapeChars, List.mem_append]
      rintro (h | h)
      · exact escChar_ne_qmark c '?' h rfl
      · exact escapeChars_qmark_free cs h

/-- Path-escaped strings contain no question mark. -/
theorem cleanPathString_qmark_free (s : String) : '?' ∉ (cleanPathString s).data :=
  escapeChars_qmark_free s.data

/-- Joining question-mark-free strings with a question-mark-free separator
stays question-mark-free. -/
theorem goJoin_qmark_free (sep : String) (hsep : '?' ∉ sep.data) :
    ∀ l : List String, (∀ x ∈ l, '?' ∉ x.data) → '?' ∉ (goJoin sep l).data
  | [] => by intro _; show ('?' : Char) ∉ ("" : String).data; decide
  | [x] => by
      intro h
      simpa [goJoin] using h x (by simp)
  | x :: y :: ys => by
      intro h
      simp only [goJoin, String.data_append, List.mem_append]
      rintro ((hx | hs) | hj)
      · exact h x (by simp) hx
      · exact hsep hs
      · exact goJoin_qmark_free sep hsep (y :: ys) (fun z hz => h z (by simp [hz])) hj

/-- The built path never contains a raw question mark: every configured index
or type name is path-escaped first. -/
theorem buildPath_qmark_free (s : SuggestService) : '?' ∉ (buildPath s).data := by
  unfold buildPath
  simp only [String.data_append, List.mem_append]
  have hclean : ∀ (l : List String), ∀ x ∈ l.map cleanPathString, '?' ∉ x.data := by
    intro l x hx
    rcases List.mem_map.mp hx with ⟨i, _, rfl⟩
    exact cleanPathString_qmark_free i
  rintro (((h | h) | h) | h)
  · exact absurd h (by decide)
  · exact goJoin_qmark_free "," (by decide) _ (hclean s.indices) h
  · exact goJoin_qmark_free "," (by decide) _ (hclean s.types) h
  · exact absurd h (by decide)

/-- With all scalar options at their defaults, no query parameter is built. -/
theorem buildParams_default (s : SuggestService) (hp : s.pretty = false)
    (hr : s.routing = "") (hpr : s.preference = "") : buildParams s = [] := by
  simp [buildParams, hp, hr, hpr]

/-- The sorted query parameters are always preference, then pretty, then
routing, each present exactly when non-default. -/
theorem sortByKey_buildParams (s : SuggestService) :
    sortByKey (buildParams s) =
      (if s.preference ≠ "" then [("preference", s.preference)] else [])
      ++ (if s.pretty then [("pretty", "true")] else [])
      ++ (if s.routing ≠ "" then [("routing", s.routing)] else []) := by
  have a : strLtB "preference" "pretty" = true := by decide
  have b : strLtB "preference" "routing" = true := by decide
  have c : strLtB "routing" "pretty" = false := by decide
  unfold buildParams
  by_cases hp : s.pretty <;> by_cases hr : s.routing = "" <;> by_cases hpr : s.preference = "" <;>
    simp [hp, hr, hpr, sortByKey, insertSorted, a, b, c]

/-- C2: the query string contains exactly the non-default scalar options —
the pretty parameter appears if and only if the pretty flag is true, the
routing parameter if and only if routing is non-empty, and the preference
parameter if and only if preference is non-empty; with all three at their
defaults the URL is the bare path and contains no question mark at all, and
with only routing set to `r1` the query string is `?routing=r1`. -/
theorem query_string_exactly_non_default :
    (∀ s : SuggestService,
        (("pretty" ∈ (buildParams s).map Prod.fst) ↔ s.pretty = true)
      ∧ (("routing" ∈ (buildParams s).map Prod.fst) ↔ s.routing ≠ "")
      ∧ (("preference" ∈ (buildParams s).map Prod.fst) ↔ s.preference ≠ ""))
    ∧ (∀ s : SuggestService, s.pretty = false → s.routing = "" → s.preference = "" →
        buildUrl s = buildPath s ∧ '?' ∉ (buildUrl s).data)
    ∧ (∀ s : SuggestService, s.pretty = false → s.routing = "r1" → s.preference = "" →
        querySuffix s = "?routing=r1") := by
  refine ⟨fun s => ?_, fun s hp hr hpr => ?_, fun s hp hr hpr => ?_⟩
  · unfold buildParams
    by_cases hp : s.pretty <;> by_cases hr : s.routing = "" <;>
      by_cases hpr : s.preference = "" <;> simp [hp, hr, hpr]
  · have hempty : buildUrl s = buildPath s := by
      unfold buildUrl querySuffix
      rw [buildParams_default s hp hr hpr]
      exact String.append_empty _
    refine ⟨hempty, ?_⟩
    rw [hempty]
    exact buildPath_qmark_free s
  · have hb : buildParams s = [("routing", "r1")] := by
      simp [buildParams, hp, hr, hpr]
    unfold querySuffix
    rw [hb]
    decide

/-- Witness for C2: only routing set gives query string `?routing=r1`, and the
default configuration appends no query string. -/
theorem query_string_exactly_non_default_witness :
    querySuffix { NewSuggestService with routing := "r1" } = "?routing=r1"
    ∧ buildUrl NewSuggestService = buildPath NewSuggestService :=
  ⟨query_string_exactly_non_default.2.2 _ rfl rfl rfl,
   (query_string_exactly_non_default.2.1 _ rfl rfl rfl).1⟩

/-- Keys after a `mapInsert`: unchanged when the key was present, extended by
the key otherwise. -/
theorem mapInsert_map_fst (m : List (String × Json)) (k : String) (v : Json) :
    (mapInsert m k v).map Prod.fst =
      if m.any (fun p => p.1 = k) then m.map Prod.fst else m.map Prod.fst ++ [k] := by
  unfold mapInsert
  split
  case isTrue h =>
    rw [List.map_map]
    congr 1
    funext p
    by_cases hp : p.1 = k <;> simp [hp]
  case isFalse h => simp

/-- Membership in the keys after a `mapInsert`. -/
theorem mapInsert_mem_fst (m : List (String × Json)) (k a : String) (v : Json) :
    a ∈ (mapInsert m k v).map Prod.fst ↔ a ∈ m.map Prod.fst ∨ a = k := by
  rw [mapInsert_map_fst]
  split
  case isTrue h =>
    constructor
    · exact fun ha => Or.inl ha
    · rintro (ha | rfl)
      · exact ha
      · rcases List.any_eq_true.mp h with ⟨p, hp, he⟩
        simp only [decide_eq_true_eq] at he
        exact List.mem_map.mpr ⟨p, hp, he⟩
  case isFalse h => simp

/-- Inserting an absent key appends the pair. -/
theorem mapInsert_not_mem (m : List (String × Json)) (k : String) (v : Json)
    (h : k ∉ m.map Prod.fst) : mapInsert m k v = m ++ [(k, v)] := by
  unfold mapInsert
  rw [if_neg]
  intro hany
  rcases List.any_eq_true.mp hany with ⟨p, hp, he⟩
  simp only [decide_eq_true_eq] at he
  exact h (List.mem_map.mpr ⟨p, hp, he⟩)

/-- Generalized key membership for the body fold. -/
theorem suggestBody_aux_mem : ∀ (sgs : List Suggester) (acc : List (String × Json)) (a : String),
    (a ∈ ((sgs.foldl (fun m sg => mapInsert m sg.Name (sg.Source false)) acc).map Prod.fst))
      ↔ a ∈ acc.map Prod.fst ∨ a ∈ sgs.map Suggester.Name
  | [], acc, a => by simp
  | sg :: rest, acc, a => by
      simp only [List.foldl, List.map_cons, List.mem_cons]
      rw [suggestBody_aux_mem rest _ a, mapInsert_mem_fst]
      tauto

/-- Generalized form of the body fold under distinct names. -/
theorem suggestBody_aux_nodup : ∀ (sgs : List Suggester) (acc : List (String × Json)),
    (sgs.map Suggester.Name).Nodup →
    (∀ n ∈ sgs.map Suggester.Name, n ∉ acc.map Prod.fst) →
    sgs.foldl (fun m sg => mapInsert m sg.Name (sg.Source false)) acc
      = acc ++ sgs.map (fun sg => (sg.Name, sg.Source false))
  | [], acc, _, _ => by simp
  | sg :: rest, acc, hnd, hdisj => by
      simp only [List.map_cons, List.nodup_cons] at hnd
      have hmem : sg.Name ∉ acc.map Prod.fst := hdisj sg.Name (by simp)
      have hdisj' : ∀ n ∈ rest.map Suggester.Name,
          n ∉ (acc ++ [(sg.Name, sg.Source false)]).map Prod.fst := by
        intro n hn
        simp only [List.map_append, List.mem_append, List.map_cons, List.map_nil,
          List.mem_singleton, not_or]
        refine ⟨hdisj n (by simp [hn]), ?_⟩
        intro he
        exact hnd.1 (he ▸ hn)
      simp only [List.foldl]
      rw [mapInsert_not_mem _ _ _ hmem, suggestBody_aux_nodup rest _ hnd.2 hdisj']
      simp

/-- The body fold only depends on each suggester's name and its
metadata-false fragment. -/
theorem suggestBody_factor (sgs : List Suggester) :
    suggestBody sgs =
      (sgs.map (fun sg => (sg.Name, sg.Source false))).foldl
        (fun m p => mapInsert m p.1 p.2) [] := by
  unfold suggestBody
  rw [List.foldl_map]

/-- C3: the JSON request body is an object whose keys are exactly the
registered suggesters' names; with distinct names every suggester's name maps
to its `Source(false)` fragment (the metadata flag is never passed as true:
the body depends only on the name and the flag-false fragment of each
suggester), and with zero suggesters the body is the empty object. -/
theorem body_keys_are_suggester_names :
    suggestBody [] = []
    ∧ (∀ (sgs : List Suggester) (k : String),
        k ∈ (suggestBody sgs).map Prod.fst ↔ k ∈ sgs.map Suggester.Name)
    ∧ (∀ sgs : List Suggester, (sgs.map Suggester.Name).Nodup →
        suggestBody sgs = sgs.map (fun sg => (sg.Name, sg.Source false)))
    ∧ (∀ sgs₁ sgs₂ : List Suggester,
        sgs₁.map (fun sg => (sg.Name, sg.Source false))
          = sgs₂.map (fun sg => (sg.Name, sg.Source false)) →
        suggestBody sgs₁ = suggestBody sgs₂) := by
  refine ⟨rfl, fun sgs k => ?_, fun sgs h => ?_, fun sgs₁ sgs₂ h => ?_⟩
  · unfold suggestBody
    rw [suggestBody_aux_mem]
    simp
  · unfold suggestBody
    rw [suggestBody_aux_nodup sgs [] h (by simp)]
    simp
  · rw [suggestBody_factor, suggestBody_factor, h]

/-- Witness for C3 at two concretely named suggesters. -/
theorem body_keys_are_suggester_names_witness :
    suggestBody [⟨"a", fun _ => Json.null⟩, ⟨"b", fun _ => Json.bool true⟩]
      = [("a", Json.null), ("b", Json.bool true)] :=
  body_keys_are_suggester_names.2.2.1 _ (by decide)

/-- C4: registering two suggesters with the same name leaves exactly one
entry under that name in the emitted body, holding the later suggester's
fragment; registering name `s` with body 1 then name `s` with body 2 emits
exactly the object with the single entry `s` mapped to 2. -/
theorem duplicate_name_last_wins :
    (∀ sg₁ sg₂ : Suggester, sg₁.Name = sg₂.Name →
        suggestBody [sg₁, sg₂] = [(sg₂.Name, sg₂.Source false)])
    ∧ suggestBody [⟨"s", fun _ => Json.num 1⟩, ⟨"s", fun _ => Json.num 2⟩]
        = [("s", Json.num 2)] := by
  constructor
  · intro sg₁ sg₂ h
    show mapInsert (mapInsert [] sg₁.Name (sg₁.Source false)) sg₂.Name (sg₂.Source false)
        = [(sg₂.Name, sg₂.Source false)]
    rw [h]
    simp [mapInsert]
  · rfl

/-- Witness for C4 at a further concrete pair of equally named suggesters. -/
theorem duplicate_name_last_wins_witness :
    suggestBody [⟨"s", fun _ => Json.str "one"⟩, ⟨"s", fun _ => Json.str "two"⟩]
      = [("s", Json.str "two")] :=
  duplicate_name_last_wins.1 _ _ rfl

/-- C10: the encoded query parameters always appear in alphabetical key order
— preference, then pretty, then routing — independently of the order of the
fluent setter calls (the scalar setters commute), so the emitted URL is a
deterministic function of the configuration. -/
theorem params_alphabetical_and_deterministic :
    (∀ s : SuggestService,
        urlValuesEncode (buildParams s) =
          goJoin "&" (((if s.preference ≠ "" then [("preference", s.preference)] else [])
            ++ (if s.pretty then [("pretty", "true")] else [])
            ++ (if s.routing ≠ "" then [("routing", s.routing)] else [])).map
              (fun p => queryEscape p.1 ++ "=" ++ queryEscape p.2)))
    ∧ (∀ s p r, SuggestService.Routing (SuggestService.Pretty s p) r
          = SuggestService.Pretty (SuggestService.Routing s r) p)
    ∧ (∀ s p pr, SuggestService.Preference (SuggestService.Pretty s p) pr
          = SuggestService.Pretty (SuggestService.Preference s pr) p)
    ∧ (∀ s r pr, SuggestService.Preference (SuggestService.Routing s r) pr
          = SuggestService.Routing (SuggestService.Preference s pr) r) := by
  refine ⟨fun s => ?_, fun s p r => rfl, fun s p pr => rfl, fun s r pr => rfl⟩
  unfold urlValuesEncode
  rw [sortByKey_buildParams]

/-- Skipping invariance: a `_shards` field anywhere in the response object
changes nothing about the decode outcome. -/
theorem decodeFields_shards_skip : ∀ (pre post : List (String × Json)) (v : Json),
    decodeFields (pre ++ ("_shards", v) :: post) = decodeFields (pre ++ post)
  | [], post, v => by simp [decodeFields]
  | (n, w) :: pre, post, v => by
      simp only [List.cons_append, decodeFields, List.append_eq]
      rw [decodeFields_shards_skip pre post v]

/-- On success, the decoded keys are the response keys in order, with the
reserved key filtered out. -/
theorem decodeFields_keys : ∀ (fields : List (String × Json)) (res : SuggestResult),
    decodeFields fields = .ok res →
    res.map Prod.fst = (fields.map Prod.fst).filter (fun k => !(k == "_shards"))
  | [], res, h => by
      simp only [decodeFields, Except.ok.injEq] at h
      subst h
      simp
  | (n, v) :: rest, res, h => by
      simp only [decodeFields] at h
      by_cases hn : n = "_shards"
      · rw [if_pos hn] at h
        subst hn
        simpa using decodeFields_keys rest res h
      · rw [if_neg hn] at h
        rcases hds : decodeSuggestions v with e | sgs
        · rw [hds] at h; cases h
        · rw [hds] at h
          rcases hdf : decodeFields rest with e | r
          · rw [hdf] at h; cases h
          · rw [hdf] at h
            simp only [Except.ok.injEq] at h
            subst h
            simp only [List.map_cons, List.filter_cons]
            have hcond : (!(n == "_shards")) = true := by simp [hn]
            rw [hcond, if_pos rfl, decodeFields_keys rest r hdf]

/-- C5: the reserved key `_shards` is never present in the decoded result and
its value is never decoded as a suggestion array: whatever JSON shape that
value has, inserting or removing a `_shards` field leaves the decode outcome
unchanged, and on success the result keys are exactly the response's
top-level keys other than `_shards`. -/
theorem shards_always_excluded :
    (∀ (pre post : List (String × Json)) (v : Json),
        decodeFields (pre ++ ("_shards", v) :: post) = decodeFields (pre ++ post))
    ∧ (∀ (fields : List (String × Json)) (res : SuggestResult),
        decodeFields fields = .ok res →
        res.map Prod.fst = (fields.map Prod.fst).filter (fun k => !(k == "_shards"))
        ∧ "_shards" ∉ res.map Prod.fst) := by
  refine ⟨decodeFields_shards_skip, fun fields res h => ?_⟩
  have hk := decodeFields_keys fields res h
  refine ⟨hk, ?_⟩
  rw [hk]
  intro hmem
  have := (List.mem_filter.mp hmem).2
  simp at this

/-- Witness for C5: a response with a scalar `_shards` value decodes, the
reserved key does not surface, and the remaining key does. -/
theorem shards_always_excluded_witness :
    ([("sug", ([] : List Suggestion))].map Prod.fst
        = ([("_shards", Json.num 5), ("sug", Json.arr [])].map Prod.fst).filter
            (fun k => !(k == "_shards")))
    ∧ "_shards" ∉ [("sug", ([] : List Suggestion))].map Prod.fst :=
  shards_always_excluded.2 [("_shards", Json.num 5), ("sug", Json.arr [])] [("sug", [])] rfl

/-- C6: a response value under a non-reserved key that is not decodable as an
array of `Suggestion` (for example a string) makes the whole decode fail: no
partial result is ever produced, and a string value never decodes. -/
theorem bad_value_aborts_decode :
    (∀ t : String, decodeSuggestions (.str t) = .error "cannot unmarshal into slice of Suggestion")
    ∧ (∀ (fields : List (String × Json)) (name : String) (v : Json),
        (name, v) ∈ fields → name ≠ "_shards" →
        exceptIsOk (decodeSuggestions v) = false →
        exceptIsOk (decodeFields fields) = false) := by
  refine ⟨fun t => rfl, fun fields => ?_⟩
  induction fields with
  | nil => intro name v hmem; simp at hmem
  | cons hd rest ih =>
      intro name v hmem hname hbad
      obtain ⟨n, w⟩ := hd
      simp only [decodeFields]
      by_cases hn : n = "_shards"
      · rw [if_pos hn]
        rcases List.mem_cons.mp hmem with he | ht
        · rw [Prod.mk.injEq] at he
          exact absurd (he.1.trans hn) hname
        · exact ih name v ht hname hbad
      · rw [if_neg hn]
        rcases List.mem_cons.mp hmem with he | ht
        · rw [Prod.mk.injEq] at he
          rcases hds : decodeSuggestions w with e | sgs
          · simp [exceptIsOk]
          · rw [he.2, hds] at hbad
            simp [exceptIsOk] at hbad
        · rcases hds : decodeSuggestions w with e | sgs
          · simp [exceptIsOk]
          · have hrest := ih name v ht hname hbad
            rcases hdf : decodeFields rest with e | r
            · simp [exceptIsOk]
            · rw [hdf] at hrest
              simp [exceptIsOk] at hrest

/-- Witness for C6: a single-field response whose value is a string fails to
decode. -/
theorem bad_value_aborts_decode_witness :
    exceptIsOk (decodeFields [("k", Json.str "v")]) = false :=
  bad_value_aborts_decode.2 [("k", Json.str "v")] "k" (Json.str "v") (by simp) (by decide) rfl

/-- C8: when the transport returns a connection error, execution returns that
error and nothing else; when the transport returns a response the response
check classifies as non-success, execution returns the status error — in both
cases no `SuggestResult` is produced and the response body is never decoded
(the outcome is the same for any body). -/
theorem transport_failure_immediate :
    (∀ (s : SuggestService) (t : Request → TransportOutcome) (msg : String),
        t (builtRequest s) = .failure msg →
        s.Do t = .error (.transport msg))
    ∧ (∀ (s : SuggestService) (t : Request → TransportOutcome) (res : Response),
        t (builtRequest s) = .success res →
        ¬(200 ≤ res.statusCode ∧ res.statusCode < 300) →
        s.Do t = .error (.status res.statusCode))
    ∧ (∀ (s : SuggestService) (t : Request → TransportOutcome) (res : Response) (b : Json),
        t (builtRequest s) = .success res →
        ¬(200 ≤ res.statusCode ∧ res.statusCode < 300) →
        s.Do t = s.Do (fun _ => .success { res with body := b })) := by
  refine ⟨fun s t msg h => ?_, fun s t res h hstatus => ?_, fun s t res b h hstatus => ?_⟩
  · simp only [SuggestService.Do, h]
  · simp only [SuggestService.Do, h, checkResponse]
    rw [if_neg hstatus]
  · simp only [SuggestService.Do, h, checkResponse]
    rw [if_neg hstatus]

/-- Witness for C8: a failing transport and a 500 response, both rejected
without decoding. -/
theorem transport_failure_immediate_witness :
    SuggestService.Do NewSuggestService (fun _ => .failure "boom") = .error (.transport "boom")
    ∧ SuggestService.Do NewSuggestService (fun _ => .success ⟨500, Json.str "oops"⟩)
        = .error (.status 500) :=
  ⟨transport_failure_immediate.1 _ _ _ rfl,
   transport_failure_immediate.2.1 _ _ _ rfl (by decide)⟩
